import Mathlib

/-!
Shallow embedding of the fall-detection ETL pipeline
(`services/etl/make_windows.py`, `services/etl/load_raw.py`).

Modelling conventions:
* timestamps and sensor values are exact rationals (`ℚ`);
* `np.sqrt` is passed explicitly as a function parameter `sq : ℚ → ℚ`
  (theorems assume only the facts about `sq` they need);
* pandas / numpy vector operations become list operations;
* the `while` loop of `window_iter` becomes a fuel-indexed structural
  recursion together with a proof that a computable amount of fuel
  suffices (this is exactly the termination claim of the source loop).
-/

/-- One row of `raw_sensor_data`: volunteer id, activity label, timestamp,
and the six sensor channels (`SENSOR_COLS`). -/
structure SensorSample where
  volunteer_id : ℤ
  activity : String
  timestamp : ℚ
  accel_x : ℚ
  accel_y : ℚ
  accel_z : ℚ
  gyro_x : ℚ
  gyro_y : ℚ
  gyro_z : ℚ
deriving DecidableEq, Repr

/-- `np.mean(arr)` over a list (empty list gives `0/0 = 0`; callers guard sizes). -/
def npMean (arr : List ℚ) : ℚ := arr.sum / (arr.length : ℚ)

/-- Population variance, so that `np.std(arr) = sq (pvar arr)`. -/
def pvar (arr : List ℚ) : ℚ := npMean (arr.map (fun x => (x - npMean arr) ^ 2))

/-- Sample variance with Bessel's correction (`ddof=1`), so that
`np.std(arr, ddof=1) = sq (svar arr)`. -/
def svar (arr : List ℚ) : ℚ :=
  (arr.map (fun x => (x - npMean arr) ^ 2)).sum / ((arr.length : ℚ) - 1)

/-- `np.min` over a non-empty list (defaults to `0` on `[]`, unreachable in callers). -/
def npMin : List ℚ → ℚ
  | [] => 0
  | x :: xs => xs.foldl min x

/-- `np.max` over a non-empty list (defaults to `0` on `[]`, unreachable in callers). -/
def npMax : List ℚ → ℚ
  | [] => 0
  | x :: xs => xs.foldl max x

/-- Sorted insertion into an ascending list of rationals. -/
def insertSorted (x : ℚ) : List ℚ → List ℚ
  | [] => [x]
  | y :: ys => if x ≤ y then x :: y :: ys else y :: insertSorted x ys

/-- Ascending sort of a list of rationals (the sorted value sequence is unique,
so this is extensionally `np.sort`). -/
def sortQ (l : List ℚ) : List ℚ := l.foldr insertSorted []

/-- `np.percentile(arr, q)` with the default linear-interpolation method:
position `q/100 * (n-1)`, linear interpolation between the two neighbouring
order statistics. -/
def percentile (arr : List ℚ) (q : ℚ) : ℚ :=
  let s := sortQ arr
  let n := s.length
  if n = 0 then 0
  else
    let pos : ℚ := q / 100 * ((n : ℚ) - 1)
    let i : ℕ := (Rat.floor pos).toNat
    let lo := s.getD i 0
    let hi := s.getD (i + 1) lo
    lo + (pos - (i : ℚ)) * (hi - lo)

/-- `_stats_for(name, arr, out)`: the eight per-channel statistics, emitted in
source order as `(key, value)` pairs appended to the feature dict. -/
def stats_for (sq : ℚ → ℚ) (name : String) (arr : List ℚ) : List (String × ℚ) :=
  [(name ++ "_mean", npMean arr),
   (name ++ "_std", if 1 < arr.length then sq (svar arr) else 0),
   (name ++ "_min", npMin arr),
   (name ++ "_max", npMax arr),
   (name ++ "_p25", percentile arr 25),
   (name ++ "_p50", percentile arr 50),
   (name ++ "_p75", percentile arr 75),
   (name ++ "_energy", npMean (arr.map (fun x => x ^ 2)))]

/-- `np.cov`-style single covariance entry with `ddof=1`; `corrcoef a b` below is
`cov1 a b / (sq (cov1 a a) * sq (cov1 b b))`, which is `np.corrcoef(a,b)[0,1]`. -/
def cov1 (a b : List ℚ) : ℚ :=
  ((a.zip b).map (fun p => (p.1 - npMean a) * (p.2 - npMean b))).sum /
    ((a.length : ℚ) - 1)

/-- `np.corrcoef(a, b)[0, 1]`: normalized covariance. -/
def corrcoef (sq : ℚ → ℚ) (a b : List ℚ) : ℚ :=
  cov1 a b / (sq (cov1 a a) * sq (cov1 b b))

/-- `_safe_corr(a, b)`: guarded Pearson correlation; `np.std(x) = sq (pvar x)`. -/
def safe_corr (sq : ℚ → ℚ) (a b : List ℚ) : ℚ :=
  if 2 < a.length ∧ 2 < b.length ∧ 0 < sq (pvar a) ∧ 0 < sq (pvar b) then
    corrcoef sq a b
  else 0

/-- `featureize(chunk)`: rejects chunks with fewer than 5 samples, otherwise
emits the eight per-channel statistic blocks (six raw channels plus the two
derived magnitude channels) followed by the three accelerometer correlations,
in source insertion order. -/
def featureize (sq : ℚ → ℚ) (chunk : List SensorSample) : List (String × ℚ) :=
  if chunk.length < 5 then []
  else
    let ax := chunk.map (fun s => s.accel_x)
    let ay := chunk.map (fun s => s.accel_y)
    let az := chunk.map (fun s => s.accel_z)
    let gx := chunk.map (fun s => s.gyro_x)
    let gy := chunk.map (fun s => s.gyro_y)
    let gz := chunk.map (fun s => s.gyro_z)
    let acc_mag := chunk.map (fun s => sq (s.accel_x ^ 2 + s.accel_y ^ 2 + s.accel_z ^ 2))
    let gyro_mag := chunk.map (fun s => sq (s.gyro_x ^ 2 + s.gyro_y ^ 2 + s.gyro_z ^ 2))
    stats_for sq "accel_x" ax ++ stats_for sq "accel_y" ay ++ stats_for sq "accel_z" az ++
    stats_for sq "gyro_x" gx ++ stats_for sq "gyro_y" gy ++ stats_for sq "gyro_z" gz ++
    stats_for sq "acc_mag" acc_mag ++ stats_for sq "gyro_mag" gyro_mag ++
    [("corr_accel_x_accel_y", safe_corr sq ax ay),
     ("corr_accel_x_accel_z", safe_corr sq ax az),
     ("corr_accel_y_accel_z", safe_corr sq ay az)]

/-- Body of the `while t_start + win <= t_max` loop of `window_iter`, indexed by
fuel; `windowLoop_congr` below shows the computable fuel bound `enoughFuel`
makes the fuel irrelevant, i.e. the source loop terminates. -/
def windowLoop (tmax win stride : ℚ) : ℕ → ℚ → List ℚ
  | 0, _ => []
  | fuel + 1, tstart =>
    if tstart + win ≤ tmax then tstart :: windowLoop tmax win stride fuel (tstart + stride)
    else []

/-- Number of iterations the `window_iter` loop can still make from `tstart`
(one more than the floor of the remaining span divided by the stride). -/
def enoughFuel (tmax win stride tstart : ℚ) : ℕ :=
  (Rat.floor ((tmax - win - tstart) / stride) + 1).toNat

/-- The sequence of `t_start` values emitted by the `window_iter` loop. -/
def windowStarts (tmax win stride tstart : ℚ) : List ℚ :=
  windowLoop tmax win stride (enoughFuel tmax win stride tstart) tstart

/-- `df_v["timestamp"].min()` (defaults to `0` on an empty frame, on which
`window_iter` returns before using it). -/
def tsMin : List SensorSample → ℚ
  | [] => 0
  | s :: rest => rest.foldl (fun m x => min m x.timestamp) s.timestamp

/-- `df_v["timestamp"].max()`. -/
def tsMax : List SensorSample → ℚ
  | [] => 0
  | s :: rest => rest.foldl (fun m x => max m x.timestamp) s.timestamp

/-- `window_iter(df_v, win_s, stride_s)` with the loop run on the given fuel;
yields `(t_start, t_end, chunk)` triples where `chunk` keeps the samples with
`t_start <= timestamp < t_end`. -/
def window_iterFuel (fuel : ℕ) (df_v : List SensorSample) (win_s stride_s : ℚ) :
    List (ℚ × ℚ × List SensorSample) :=
  if df_v.isEmpty then []
  else
    let tmin := tsMin df_v
    let tmax := tsMax df_v
    (windowLoop tmax win_s stride_s fuel tmin).map
      (fun t => (t, t + win_s,
        df_v.filter (fun s => decide (t ≤ s.timestamp) && decide (s.timestamp < t + win_s))))

/-- `window_iter(df_v, win_s, stride_s)`: the loop run to completion. -/
def window_iter (df_v : List SensorSample) (win_s stride_s : ℚ) :
    List (ℚ × ℚ × List SensorSample) :=
  window_iterFuel (enoughFuel (tsMax df_v) win_s stride_s (tsMin df_v)) df_v win_s stride_s

/-- `chunk["activity"].value_counts()` over a typed activity column: the
distinct activity values, each with its occurrence count.  (The order pandas
uses between equal counts is unspecified; `idxmax` below picks the argmax, so
only ties — explicitly out of the specified behaviour — could depend on it.) -/
def value_counts (l : List String) : List (String × ℕ) :=
  l.dedup.map (fun a => (a, l.count a))

/-- `counts.idxmax()`: the label of a pair attaining the maximal count
(`none` on an empty counts series, matching the `counts.empty` guard). -/
def idxmax : List (String × ℕ) → Option String
  | [] => none
  | p :: rest => some (rest.foldl (fun best q => if best.2 < q.2 then q else best) p).1

/-- `majority_label(chunk)`; `hasActivity` models whether the frame has an
`activity` column (`"activity" not in chunk.columns`). -/
def majority_label (hasActivity : Bool) (chunk : List SensorSample) : Option String :=
  if hasActivity = false ∨ chunk.isEmpty then none
  else idxmax (value_counts (chunk.map (fun s => s.activity)))

/-- One row of the `windows` table as inserted by `main`. -/
structure LabeledWindow where
  volunteer_id : ℤ
  t_start : ℚ
  t_end : ℚ
  label : Option String
  features : List (String × ℚ)
deriving DecidableEq, Repr

/-- Sorted insertion of a sample by timestamp. -/
def insertByTime (x : SensorSample) : List SensorSample → List SensorSample
  | [] => [x]
  | y :: ys => if x.timestamp ≤ y.timestamp then x :: y :: ys else y :: insertByTime x ys

/-- `df_v.sort_values("timestamp")` (again extensional: any sort by timestamp). -/
def sortByTime (l : List SensorSample) : List SensorSample := l.foldr insertByTime []

/-- Sorted insertion of a volunteer id. -/
def insertInt (x : ℤ) : List ℤ → List ℤ
  | [] => [x]
  | y :: ys => if x ≤ y then x :: y :: ys else y :: insertInt x ys

/-- The distinct volunteer ids in ascending order — the group keys of
`df.groupby("volunteer_id")`. -/
def subjectIds (df : List SensorSample) : List ℤ :=
  ((df.map (fun s => s.volunteer_id)).dedup).foldr insertInt []

/-- One group of `df.groupby("volunteer_id")` after `sort_values("timestamp")`. -/
def groupFor (df : List SensorSample) (vid : ℤ) : List SensorSample :=
  sortByTime (df.filter (fun s => decide (s.volunteer_id = vid)))

/-- The body of `main`'s inner loop for one emitted window: `featureize`, the
`if not feats: continue` guard, then `majority_label` and the `INSERT` row. -/
def persistDecision (sq : ℚ → ℚ) (vid : ℤ) (w : ℚ × ℚ × List SensorSample) :
    Option LabeledWindow :=
  let feats := featureize sq w.2.2
  if feats.isEmpty then none
  else some ⟨vid, w.1, w.2.1, majority_label true w.2.2, feats⟩

/-- The two loops of `main`: accumulate the inserted rows and the `total`
counter across all volunteer groups and windows. -/
def runBody (sq : ℚ → ℚ) (df : List SensorSample) (win stride : ℚ) :
    List LabeledWindow × ℕ :=
  (subjectIds df).foldl
    (fun acc vid =>
      (window_iter (groupFor df vid) win stride).foldl
        (fun acc2 w =>
          match persistDecision sq vid w with
          | none => acc2
          | some r => (acc2.1 ++ [r], acc2.2 + 1))
        acc)
    ([], 0)

/-- Observable outcome of `main()`: whether the empty-source warning was
printed, the rows written to `windows`, and the reported `total`. -/
structure RunResult where
  warned : Bool
  writes : List LabeledWindow
  total : ℕ
deriving DecidableEq, Repr

/-- `main()`: warn and stop on an empty raw source, otherwise run the
windowing pipeline and report the insert count. -/
def mainRun (sq : ℚ → ℚ) (df : List SensorSample) (win stride : ℚ) : RunResult :=
  if df.isEmpty then ⟨true, [], 0⟩
  else
    let body := runBody sq df win stride
    ⟨false, body.1, body.2⟩

/-- `REQUIRED_COLS` of `services/etl/load_raw.py`. -/
def REQUIRED_COLS : List String :=
  ["volunteer_id", "activity", "timestamp",
   "accel_x", "accel_y", "accel_z",
   "gyro_x", "gyro_y", "gyro_z"]

/-- `[c for c in REQUIRED_COLS if c not in df.columns]`. -/
def missingCols (cols : List String) : List String :=
  REQUIRED_COLS.filter (fun c => decide (c ∉ cols))

/-- Outcome of `load_csv_to_raw`: either `sys.exit(1)` before any write,
or the batch insert of all rows. -/
inductive LoadResult (α : Type) where
  | aborted (missing : List String)
  | inserted (rows : List α)
deriving DecidableEq, Repr

/-- Rows actually written to `raw_sensor_data` by a `load_csv_to_raw` outcome. -/
def loadWrites {α : Type} : LoadResult α → List α
  | .aborted _ => []
  | .inserted rows => rows

/-- `load_csv_to_raw` from the column-validation step on: abort on any missing
required column, otherwise insert every row of the batch. -/
def load_csv_to_raw {α : Type} (cols : List String) (rows : List α) : LoadResult α :=
  if (missingCols cols).isEmpty then .inserted rows
  else .aborted (missingCols cols)

/-- Convenience constructor for concrete sample data. -/
def mkSample (vid : ℤ) (act : String) (ts ax ay az gx gy gz : ℚ) : SensorSample :=
  ⟨vid, act, ts, ax, ay, az, gx, gy, gz⟩

/-- A small concrete series: volunteer 1, samples at t = 0, 1, 2, 3. -/
def dfW : List SensorSample :=
  [mkSample 1 "walk" 0 1 0 0 0 0 0,
   mkSample 1 "walk" 1 1 0 0 0 0 0,
   mkSample 1 "fall" 2 1 0 0 0 0 0,
   mkSample 1 "walk" 3 1 0 0 0 0 0]

/-- A concrete series whose timestamp span is shorter than one window. -/
def dfShort : List SensorSample :=
  [mkSample 1 "walk" 0 1 0 0 0 0 0,
   mkSample 1 "walk" (1/2) 1 0 0 0 0 0]

/-- Five concrete samples with `accel = (1, 0, 0)` and `gyro = (0, 0, 0)`,
so both sums of squares are `1` or `0` and the identity is an exact square
root on them. -/
def chunk5 : List SensorSample :=
  [mkSample 1 "walk" 0 1 0 0 0 0 0,
   mkSample 1 "walk" 1 1 0 0 0 0 0,
   mkSample 1 "fall" 2 1 0 0 0 0 0,
   mkSample 1 "fall" 3 1 0 0 0 0 0,
   mkSample 1 "fall" 4 1 0 0 0 0 0]

/-- Batteries' `Rat.floor` agrees with the `FloorRing` floor on `ℚ`. -/
theorem ratFloor_eq (q : ℚ) : q.floor = ⌊q⌋ := by
  rw [Rat.floor_def', ← Rat.floor_def]

/-- If the loop guard fails, `windowLoop` emits nothing whatever the fuel. -/
theorem windowLoop_nil (tmax win stride t : ℚ) (h : ¬ t + win ≤ tmax) :
    ∀ fuel : ℕ, windowLoop tmax win stride fuel t = [] := by
  intro fuel
  cases fuel <;> simp [windowLoop, h]

/-- The first start emitted by `windowLoop` is its initial `t_start`. -/
theorem windowLoop_head (tmax win stride : ℚ) (fuel : ℕ) (t : ℚ) :
    ∀ x ∈ (windowLoop tmax win stride fuel t).head?, x = t := by
  cases fuel with
  | zero => simp [windowLoop]
  | succ n => by_cases h : t + win ≤ tmax <;> simp [windowLoop, h]

/-- Consecutive starts emitted by `windowLoop` differ by exactly the stride. -/
theorem windowLoop_chain (tmax win stride : ℚ) :
    ∀ (fuel : ℕ) (t : ℚ),
      List.Chain' (fun a b => b - a = stride) (windowLoop tmax win stride fuel t) := by
  intro fuel
  induction fuel with
  | zero => intro t; simp [windowLoop]
  | succ n ih =>
    intro t
    by_cases h : t + win ≤ tmax
    · simp only [windowLoop, if_pos h]
      refine List.chain'_cons'.mpr ⟨fun y hy => ?_, ih (t + stride)⟩
      have hy' := windowLoop_head tmax win stride n (t + stride) y hy
      rw [hy']
      ring
    · simp [windowLoop, h]

/-- When the guard holds, at least one loop iteration of fuel is available. -/
theorem enoughFuel_pos (tmax win stride t : ℚ) (hs : 0 < stride) (h : t + win ≤ tmax) :
    1 ≤ enoughFuel tmax win stride t := by
  unfold enoughFuel
  rw [ratFloor_eq]
  have hd : (0 : ℚ) ≤ (tmax - win - t) / stride := div_nonneg (by linarith) hs.le
  have := Int.floor_nonneg.mpr hd
  omega

/-- Advancing the start by one stride consumes exactly one unit of fuel. -/
theorem enoughFuel_succ (tmax win stride t : ℚ) (hs : 0 < stride) (h : t + win ≤ tmax) :
    enoughFuel tmax win stride (t + stride) + 1 = enoughFuel tmax win stride t := by
  unfold enoughFuel
  rw [ratFloor_eq, ratFloor_eq]
  have hst : stride ≠ 0 := ne_of_gt hs
  have hd : (tmax - win - (t + stride)) / stride = (tmax - win - t) / stride - 1 := by
    field_simp
    ring
  rw [hd, Int.floor_sub_one]
  have hd0 : (0 : ℚ) ≤ (tmax - win - t) / stride := div_nonneg (by linarith) hs.le
  have := Int.floor_nonneg.mpr hd0
  omega

/-- Any two fuels at least `enoughFuel` produce the same loop output: the
source `while` loop is insensitive to extra iterations past its bound. -/
theorem windowLoop_congr (tmax win stride : ℚ) (hs : 0 < stride) :
    ∀ (f₁ f₂ : ℕ) (t : ℚ),
      enoughFuel tmax win stride t ≤ f₁ → enoughFuel tmax win stride t ≤ f₂ →
      windowLoop tmax win stride f₁ t = windowLoop tmax win stride f₂ t := by
  intro f₁
  induction f₁ with
  | zero =>
    intro f₂ t h1 h2
    have hcond : ¬ t + win ≤ tmax := by
      intro hc
      have := enoughFuel_pos tmax win stride t hs hc
      omega
    rw [windowLoop_nil tmax win stride t hcond, windowLoop_nil tmax win stride t hcond]
  | succ n ih =>
    intro f₂ t h1 h2
    by_cases hcond : t + win ≤ tmax
    · have hpos := enoughFuel_pos tmax win stride t hs hcond
      have hsucc := enoughFuel_succ tmax win stride t hs hcond
      cases f₂ with
      | zero => omega
      | succ m =>
        simp only [windowLoop, if_pos hcond]
        rw [ih m (t + stride) (by omega) (by omega)]
    · rw [windowLoop_nil tmax win stride t hcond, windowLoop_nil tmax win stride t hcond]

/-- Claim C1: every window emitted by the segmenter satisfies
`t_end - t_start = W` exactly, and the `t_start` values of consecutive
emitted windows differ by exactly `S`. -/
theorem c1_window_length_and_stride (df : List SensorSample) (win stride : ℚ)
    (hw : 0 < win) (hs : 0 < stride) :
    (∀ w ∈ window_iter df win stride, w.2.1 - w.1 = win) ∧
      List.Chain' (fun a b => b.1 - a.1 = stride) (window_iter df win stride) := by
  unfold window_iter window_iterFuel
  by_cases hdf : df.isEmpty = true
  · rw [if_pos hdf]
    simp
  · rw [if_neg hdf]
    constructor
    · intro w hw'
      simp only [List.mem_map] at hw'
      obtain ⟨t, _, rfl⟩ := hw'
      ring
    · rw [List.chain'_map]
      exact windowLoop_chain (tsMax df) win stride _ (tsMin df)

/-- Concrete check of `c1_window_length_and_stride` on `dfW` with `W = S = 1`. -/
theorem c1_window_length_and_stride_witness :
    (∀ w ∈ window_iter dfW 1 1, w.2.1 - w.1 = 1) ∧
      List.Chain' (fun a b => b.1 - a.1 = 1) (window_iter dfW 1 1) :=
  c1_window_length_and_stride dfW 1 1 (by norm_num) (by norm_num)

/-- Claim C3: for every non-empty series and positive window and stride the
segmentation loop terminates — the computable fuel bound used by
`window_iter` already yields the loop's fixed point, so every larger fuel
produces the same finite window sequence. -/
theorem c3_segmenter_terminates (df : List SensorSample) (win stride : ℚ)
    (hne : df ≠ []) (hw : 0 < win) (hs : 0 < stride) :
    ∃ n : ℕ, ∀ fuel : ℕ, n ≤ fuel →
      window_iterFuel fuel df win stride = window_iter df win stride := by
  refine ⟨enoughFuel (tsMax df) win stride (tsMin df), fun fuel hf => ?_⟩
  unfold window_iter window_iterFuel
  have hcg := windowLoop_congr (tsMax df) win stride hs fuel
    (enoughFuel (tsMax df) win stride (tsMin df)) (tsMin df) hf le_rfl
  simp [hcg]

/-- Concrete check of `c3_segmenter_terminates` on `dfW`. -/
theorem c3_segmenter_terminates_witness :
    ∃ n : ℕ, ∀ fuel : ℕ, n ≤ fuel →
      window_iterFuel fuel dfW 1 1 = window_iter dfW 1 1 :=
  c3_segmenter_terminates dfW 1 1 (by simp [dfW]) (by norm_num) (by norm_num)

/-- Claim C8: an empty series yields zero windows, and a non-empty series
whose timestamp span is below the window length yields zero windows. -/
theorem c8_empty_or_short_series (win stride : ℚ) :
    window_iter [] win stride = [] ∧
      ∀ df : List SensorSample, df ≠ [] → tsMax df - tsMin df < win →
        window_iter df win stride = [] := by
  constructor
  · rfl
  · intro df hne hspan
    unfold window_iter window_iterFuel
    have hcond : ¬ tsMin df + win ≤ tsMax df := by
      intro hc
      linarith
    simp [windowLoop_nil (tsMax df) win stride (tsMin df) hcond]

/-- Concrete check of `c8_empty_or_short_series`: the empty series and the
half-second-span series `dfShort` both produce no window of length 1. -/
theorem c8_empty_or_short_series_witness :
    window_iter [] 1 1 = [] ∧ window_iter dfShort 1 1 = [] :=
  ⟨(c8_empty_or_short_series 1 1).1,
   (c8_empty_or_short_series 1 1).2 dfShort (by simp [dfShort])
     (by norm_num [dfShort, tsMax, tsMin, mkSample])⟩

/-- Claim C9: a CSV batch missing any of the nine required intake columns is
aborted before any write — no row of that batch reaches `raw_sensor_data`. -/
theorem c9_missing_column_aborts {α : Type} (cols : List String) (rows : List α)
    (hmiss : ∃ c ∈ REQUIRED_COLS, c ∉ cols) :
    REQUIRED_COLS.length = 9 ∧
      load_csv_to_raw cols rows = .aborted (missingCols cols) ∧
      loadWrites (load_csv_to_raw cols rows) = [] := by
  obtain ⟨c, hc, hnc⟩ := hmiss
  have hmem : c ∈ missingCols cols := by
    simp only [missingCols, List.mem_filter, decide_eq_true_eq]
    exact ⟨hc, hnc⟩
  have hne : missingCols cols ≠ [] := by
    intro h
    rw [h] at hmem
    simp at hmem
  have hemp : (missingCols cols).isEmpty = false := by
    simp [List.isEmpty_iff, hne]
  refine ⟨rfl, ?_, ?_⟩ <;> simp [load_csv_to_raw, hemp, loadWrites]

/-- Concrete check of `c9_missing_column_aborts`: a CSV providing only
`volunteer_id` and `timestamp` inserts nothing. -/
theorem c9_missing_column_aborts_witness :
    REQUIRED_COLS.length = 9 ∧
      load_csv_to_raw ["volunteer_id", "timestamp"] ([42] : List ℕ) =
        .aborted (missingCols ["volunteer_id", "timestamp"]) ∧
      loadWrites (load_csv_to_raw ["volunteer_id", "timestamp"] ([42] : List ℕ)) = [] :=
  c9_missing_column_aborts ["volunteer_id", "timestamp"] [42]
    ⟨"activity", by decide, by decide⟩

/-- The running argmax of `idxmax` stays inside the candidate list. -/
theorem foldl_argmax_mem (l : List (String × ℕ)) (p : String × ℕ) :
    l.foldl (fun best q => if best.2 < q.2 then q else best) p ∈ p :: l := by
  induction l generalizing p with
  | nil => simp
  | cons q rest ih =>
    have h := ih (if p.2 < q.2 then q else p)
    simp only [List.foldl_cons]
    by_cases hpq : p.2 < q.2
    · rw [if_pos hpq] at h ⊢
      exact List.mem_cons_of_mem _ h
    · rw [if_neg hpq] at h ⊢
      rcases List.mem_cons.mp h with h' | h'
      · rw [h']
        exact List.mem_cons_self _ _
      · exact List.mem_cons_of_mem _ (List.mem_cons_of_mem _ h')

/-- The running argmax of `idxmax` dominates every candidate count. -/
theorem foldl_argmax_ge (l : List (String × ℕ)) (p : String × ℕ) :
    ∀ q ∈ p :: l, q.2 ≤ (l.foldl (fun best r => if best.2 < r.2 then r else best) p).2 := by
  induction l generalizing p with
  | nil => simp
  | cons r rest ih =>
    intro q hq
    simp only [List.foldl_cons]
    have hp1 : p.2 ≤ (if p.2 < r.2 then r else p).2 := by
      by_cases h : p.2 < r.2 <;> simp [h] <;> omega
    have hp2 : r.2 ≤ (if p.2 < r.2 then r else p).2 := by
      by_cases h : p.2 < r.2 <;> simp [h] <;> omega
    have hself := ih (if p.2 < r.2 then r else p) (if p.2 < r.2 then r else p)
      (List.mem_cons_self _ _)
    rcases List.mem_cons.mp hq with rfl | hq'
    · exact le_trans hp1 hself
    · rcases List.mem_cons.mp hq' with rfl | hq''
      · exact le_trans hp2 hself
      · exact ih (if p.2 < r.2 then r else p) q (List.mem_cons_of_mem _ hq'')

/-- Claim C7: `majority_label` returns `none` exactly on an empty subset or a
missing activity column, and returns the unique most-frequent activity value
whenever one exists. -/
theorem c7_majority_label (hasAct : Bool) (chunk : List SensorSample) :
    (majority_label hasAct chunk = none ↔ (hasAct = false ∨ chunk = [])) ∧
      ∀ m : String, hasAct = true → chunk ≠ [] →
        m ∈ chunk.map (fun s => s.activity) →
        (∀ a ∈ chunk.map (fun s => s.activity), a ≠ m →
          (chunk.map (fun s => s.activity)).count a <
            (chunk.map (fun s => s.activity)).count m) →
        majority_label hasAct chunk = some m := by
  have hsome : ∀ chunk' : List SensorSample, chunk' ≠ [] →
      ∃ c rest, value_counts (chunk'.map (fun s => s.activity)) = c :: rest := by
    intro chunk' hne
    cases hvc : value_counts (chunk'.map (fun s => s.activity)) with
    | cons c rest => exact ⟨c, rest, rfl⟩
    | nil =>
      exfalso
      apply hne
      have h1 := List.map_eq_nil.mp hvc
      have h2 := (List.dedup_eq_nil _).mp h1
      exact List.map_eq_nil.mp h2
  constructor
  · cases hasAct with
    | false => simp [majority_label]
    | true =>
      cases hchunk : chunk with
      | nil => simp [majority_label]
      | cons s rest =>
        obtain ⟨c, crest, hvc⟩ := hsome (s :: rest) (List.cons_ne_nil _ _)
        simp only [List.map_cons] at hvc
        simp [majority_label, hvc, idxmax]
  · intro m hTrue hne hm hmax
    subst hTrue
    have hcond : ¬ ((true : Bool) = false ∨ chunk.isEmpty = true) := by
      simp [List.isEmpty_iff, hne]
    obtain ⟨c, rest, hvc⟩ := hsome chunk hne
    unfold majority_label
    rw [if_neg hcond, hvc]
    have hmem := foldl_argmax_mem rest c
    rw [← hvc] at hmem
    obtain ⟨a, ha, hres⟩ := List.mem_map.mp hmem
    have haacts : a ∈ chunk.map (fun s => s.activity) := List.mem_dedup.mp ha
    by_cases ham : a = m
    · subst ham
      simp [idxmax, ← hres]
    · exfalso
      have hlt := hmax a haacts ham
      have hmmem : (m, (chunk.map (fun s => s.activity)).count m) ∈
          value_counts (chunk.map (fun s => s.activity)) :=
        List.mem_map.mpr ⟨m, List.mem_dedup.mpr hm, rfl⟩
      rw [hvc] at hmmem
      have hge := foldl_argmax_ge rest c _ hmmem
      rw [← hres] at hge
      simp at hge
      omega

/-- Concrete check of `c7_majority_label`: on `chunk5` (2 × walk, 3 × fall)
the resolver returns `fall`; with no activity column or an empty subset it
returns `none`. -/
theorem c7_majority_label_witness :
    majority_label true chunk5 = some "fall" ∧
      majority_label false chunk5 = none ∧ majority_label true [] = none :=
  ⟨(c7_majority_label true chunk5).2 "fall" rfl (by simp [chunk5])
      (by decide) (by decide),
   (c7_majority_label false chunk5).1.mpr (Or.inl rfl),
   (c7_majority_label true []).1.mpr (Or.inr rfl)⟩

/-- Sum of a constant list. -/
theorem sum_of_const (l : List ℚ) (c : ℚ) (h : ∀ x ∈ l, x = c) :
    l.sum = l.length * c := by
  induction l with
  | nil => simp
  | cons x xs ih =>
    simp only [List.sum_cons, List.length_cons]
    rw [h x (List.mem_cons_self _ _), ih (fun y hy => h y (List.mem_cons_of_mem _ hy))]
    push_cast
    ring

/-- Mean of a non-empty constant list. -/
theorem npMean_const (l : List ℚ) (c : ℚ) (hne : l ≠ []) (h : ∀ x ∈ l, x = c) :
    npMean l = c := by
  unfold npMean
  rw [sum_of_const l c h]
  have hlen : (l.length : ℚ) ≠ 0 :=
    Nat.cast_ne_zero.mpr (List.length_pos.mpr hne).ne'
  rw [mul_comm, mul_div_assoc, div_self hlen, mul_one]

/-- The squared deviations of a constant list all vanish. -/
theorem devsq_zero (l : List ℚ) (c : ℚ) (h : ∀ x ∈ l, x = c) :
    ∀ y ∈ l.map (fun t => (t - npMean l) ^ 2), y = 0 := by
  rcases l with _ | ⟨x, xs⟩
  · simp
  · intro y hy
    obtain ⟨t, ht, rfl⟩ := List.mem_map.mp hy
    rw [h t ht, npMean_const _ c (List.cons_ne_nil _ _) h]
    simp

/-- A list with zero sum has zero mean. -/
theorem npMean_zero (l : List ℚ) (h : l.sum = 0) : npMean l = 0 := by
  unfold npMean
  rw [h, zero_div]

/-- Population variance of a constant list is zero. -/
theorem pvar_const (l : List ℚ) (c : ℚ) (h : ∀ x ∈ l, x = c) : pvar l = 0 := by
  unfold pvar
  exact npMean_zero _ (List.sum_eq_zero (devsq_zero l c h))

/-- Sample variance of a constant list is zero. -/
theorem svar_const (l : List ℚ) (c : ℚ) (h : ∀ x ∈ l, x = c) : svar l = 0 := by
  unfold svar
  rw [List.sum_eq_zero (devsq_zero l c h), zero_div]

/-- Distinct suffixes keep appended strings distinct. -/
theorem str_ne_of_data_ne (n a b : String) (h : a.data ≠ b.data) : n ++ a ≠ n ++ b := by
  intro hh
  have hd := congrArg String.data hh
  simp only [String.data_append, List.append_cancel_left_eq] at hd
  exact h hd

/-- Claim C4: each of the three guarded Pearson correlations is `0` whenever
either series has at most 2 samples or zero variance, and a channel that is
constant on the window has standard deviation `0` and correlation `0` with
anything. -/
theorem c4_corr_guard_and_const_channel (sq : ℚ → ℚ) (h0 : sq 0 = 0) :
    (∀ a b : List ℚ,
        a.length ≤ 2 ∨ b.length ≤ 2 ∨ pvar a = 0 ∨ pvar b = 0 →
        safe_corr sq a b = 0) ∧
      (∀ (name : String) (arr : List ℚ) (c : ℚ), (∀ x ∈ arr, x = c) →
        ∀ kv ∈ stats_for sq name arr, kv.1 = name ++ "_std" → kv.2 = 0) ∧
      (∀ (a b : List ℚ) (c : ℚ), (∀ x ∈ a, x = c) →
        safe_corr sq a b = 0 ∧ safe_corr sq b a = 0) := by
  have hguard : ∀ a b : List ℚ,
      a.length ≤ 2 ∨ b.length ≤ 2 ∨ pvar a = 0 ∨ pvar b = 0 →
      safe_corr sq a b = 0 := by
    intro a b hcase
    unfold safe_corr
    rw [if_neg]
    rintro ⟨h1, h2, h3, h4⟩
    rcases hcase with h | h | h | h
    · omega
    · omega
    · rw [h, h0] at h3
      exact lt_irrefl 0 h3
    · rw [h, h0] at h4
      exact lt_irrefl 0 h4
  refine ⟨hguard, ?_, ?_⟩
  · intro name arr c hconst kv hkv hk1
    have hsvar : svar arr = 0 := svar_const arr c hconst
    simp only [stats_for, List.mem_cons, List.not_mem_nil, or_false] at hkv
    rcases hkv with rfl | rfl | rfl | rfl | rfl | rfl | rfl | rfl
    · exact absurd hk1 (str_ne_of_data_ne name "_mean" "_std" (by decide))
    · by_cases hl : 1 < arr.length
      · simp [hl, hsvar, h0]
      · simp [hl]
    · exact absurd hk1 (str_ne_of_data_ne name "_min" "_std" (by decide))
    · exact absurd hk1 (str_ne_of_data_ne name "_max" "_std" (by decide))
    · exact absurd hk1 (str_ne_of_data_ne name "_p25" "_std" (by decide))
    · exact absurd hk1 (str_ne_of_data_ne name "_p50" "_std" (by decide))
    · exact absurd hk1 (str_ne_of_data_ne name "_p75" "_std" (by decide))
    · exact absurd hk1 (str_ne_of_data_ne name "_energy" "_std" (by decide))
  · intro a b c hconst
    have hz := pvar_const a c hconst
    exact ⟨hguard a b (Or.inr (Or.inr (Or.inl hz))),
           hguard b a (Or.inr (Or.inr (Or.inr hz)))⟩

unseal Rat.add Rat.mul Rat.inv Rat.sub in
/-- Concrete check of `c4_corr_guard_and_const_channel` with `sq` the identity
(an exact square root at `0`): short series and constant series give
correlation `0`, and the `std` entry of a constant channel is `0`. -/
theorem c4_corr_guard_and_const_channel_witness :
    safe_corr (fun x => x) [1, 2] [1, 2, 3] = 0 ∧
      (("accel_x_std", (0 : ℚ)) : String × ℚ).2 = 0 ∧
      (safe_corr (fun x => x) [5, 5, 5] [1, 2, 3] = 0 ∧
        safe_corr (fun x => x) [1, 2, 3] [5, 5, 5] = 0) :=
  ⟨(c4_corr_guard_and_const_channel (fun x => x) rfl).1 [1, 2] [1, 2, 3]
      (Or.inl (by decide)),
   (c4_corr_guard_and_const_channel (fun x => x) rfl).2.1 "accel_x"
      [3, 3, 3, 3, 3] 3 (by decide) ("accel_x_std", 0) (by decide) (by decide),
   (c4_corr_guard_and_const_channel (fun x => x) rfl).2.2 [5, 5, 5] [1, 2, 3] 5
      (by decide)⟩

/-- Claim C2 (amended): `featureize` returns the empty result exactly on
subsets of fewer than 5 samples, and on any larger subset emits exactly 67
features keyed `"{channel}_{statistic}"` (with the magnitude channels named
`acc_mag` and `gyro_mag`) plus the three `"corr_{a}_{b}"` keys. -/
theorem c2_featureize_keys (sq : ℚ → ℚ) (chunk : List SensorSample) :
    (featureize sq chunk = [] ↔ chunk.length < 5) ∧
      (5 ≤ chunk.length → (featureize sq chunk).map Prod.fst =
      ["accel_x_mean", "accel_x_std", "accel_x_min", "accel_x_max",
       "accel_x_p25", "accel_x_p50", "accel_x_p75", "accel_x_energy",
       "accel_y_mean", "accel_y_std", "accel_y_min", "accel_y_max",
       "accel_y_p25", "accel_y_p50", "accel_y_p75", "accel_y_energy",
       "accel_z_mean", "accel_z_std", "accel_z_min", "accel_z_max",
       "accel_z_p25", "accel_z_p50", "accel_z_p75", "accel_z_energy",
       "gyro_x_mean", "gyro_x_std", "gyro_x_min", "gyro_x_max",
       "gyro_x_p25", "gyro_x_p50", "gyro_x_p75", "gyro_x_energy",
       "gyro_y_mean", "gyro_y_std", "gyro_y_min", "gyro_y_max",
       "gyro_y_p25", "gyro_y_p50", "gyro_y_p75", "gyro_y_energy",
       "gyro_z_mean", "gyro_z_std", "gyro_z_min", "gyro_z_max",
       "gyro_z_p25", "gyro_z_p50", "gyro_z_p75", "gyro_z_energy",
       "acc_mag_mean", "acc_mag_std", "acc_mag_min", "acc_mag_max",
       "acc_mag_p25", "acc_mag_p50", "acc_mag_p75", "acc_mag_energy",
       "gyro_mag_mean", "gyro_mag_std", "gyro_mag_min", "gyro_mag_max",
       "gyro_mag_p25", "gyro_mag_p50", "gyro_mag_p75", "gyro_mag_energy",
       "corr_accel_x_accel_y", "corr_accel_x_accel_z", "corr_accel_y_accel_z"]) := by
  constructor
  · constructor
    · intro h
      by_contra hlt
      unfold featureize at h
      rw [if_neg hlt] at h
      simp at h
    · intro h
      unfold featureize
      rw [if_pos h]
  · intro h
    unfold featureize
    rw [if_neg (by omega)]
    simp only [stats_for, List.map_append, List.map_cons, List.map_nil]
    rfl

/-- Concrete check of `c2_featureize_keys` on the 5-sample `chunk5`. -/
theorem c2_featureize_keys_witness :
    (featureize (fun x => x) chunk5).map Prod.fst =
      ["accel_x_mean", "accel_x_std", "accel_x_min", "accel_x_max",
       "accel_x_p25", "accel_x_p50", "accel_x_p75", "accel_x_energy",
       "accel_y_mean", "accel_y_std", "accel_y_min", "accel_y_max",
       "accel_y_p25", "accel_y_p50", "accel_y_p75", "accel_y_energy",
       "accel_z_mean", "accel_z_std", "accel_z_min", "accel_z_max",
       "accel_z_p25", "accel_z_p50", "accel_z_p75", "accel_z_energy",
       "gyro_x_mean", "gyro_x_std", "gyro_x_min", "gyro_x_max",
       "gyro_x_p25", "gyro_x_p50", "gyro_x_p75", "gyro_x_energy",
       "gyro_y_mean", "gyro_y_std", "gyro_y_min", "gyro_y_max",
       "gyro_y_p25", "gyro_y_p50", "gyro_y_p75", "gyro_y_energy",
       "gyro_z_mean", "gyro_z_std", "gyro_z_min", "gyro_z_max",
       "gyro_z_p25", "gyro_z_p50", "gyro_z_p75", "gyro_z_energy",
       "acc_mag_mean", "acc_mag_std", "acc_mag_min", "acc_mag_max",
       "acc_mag_p25", "acc_mag_p50", "acc_mag_p75", "acc_mag_energy",
       "gyro_mag_mean", "gyro_mag_std", "gyro_mag_min", "gyro_mag_max",
       "gyro_mag_p25", "gyro_mag_p50", "gyro_mag_p75", "gyro_mag_energy",
       "corr_accel_x_accel_y", "corr_accel_x_accel_z", "corr_accel_y_accel_z"] :=
  (c2_featureize_keys (fun x => x) chunk5).2 (by decide)

unseal Rat.add Rat.mul Rat.inv Rat.sub in
/-- Counterexample to claim C2 as stated: on a subset of 5 samples the
extractor does emit a non-empty 67-key vector, but no key uses the channel
names `accel_magnitude` or `gyro_magnitude` — the magnitude channels are
keyed `acc_mag` and `gyro_mag`. -/
theorem c2_featureize_keys_counterexample :
    5 ≤ chunk5.length ∧ featureize (fun x => x) chunk5 ≠ [] ∧
      ((featureize (fun x => x) chunk5).map Prod.fst).length = 67 ∧
      "accel_magnitude_mean" ∉ (featureize (fun x => x) chunk5).map Prod.fst ∧
      "gyro_magnitude_mean" ∉ (featureize (fun x => x) chunk5).map Prod.fst ∧
      "acc_mag_mean" ∈ (featureize (fun x => x) chunk5).map Prod.fst ∧
      "gyro_mag_mean" ∈ (featureize (fun x => x) chunk5).map Prod.fst := by
  refine ⟨by decide, ?_, ?_, by decide, by decide, by decide, by decide⟩
  · intro h
    have hlen := congrArg List.length h
    simp [featureize] at hlen
    simp [chunk5] at hlen
  · decide

/-- Mean of a pointwise three-way sum is the sum of the means. -/
theorem npMean_map_add3 (l : List SensorSample) (f g h : SensorSample → ℚ) :
    npMean (l.map (fun s => f s + g s + h s)) =
      npMean (l.map f) + npMean (l.map g) + npMean (l.map h) := by
  unfold npMean
  simp only [List.length_map]
  rw [div_add_div_same, div_add_div_same]
  congr 1
  rw [show (fun s => f s + g s + h s) = fun s => (f s + g s) + h s from rfl]
  rw [List.sum_map_add, List.sum_map_add]

/-- Claim C10: whenever `sq` is an exact square root on the sums of squares
occurring in the chunk, the energy of each magnitude channel emitted by
`featureize` is exactly the sum of the three axis energies. -/
theorem c10_magnitude_energy_additive (sq : ℚ → ℚ) (chunk : List SensorSample)
    (h5 : 5 ≤ chunk.length)
    (hacc : ∀ s ∈ chunk, sq (s.accel_x ^ 2 + s.accel_y ^ 2 + s.accel_z ^ 2) ^ 2 =
      s.accel_x ^ 2 + s.accel_y ^ 2 + s.accel_z ^ 2)
    (hgyro : ∀ s ∈ chunk, sq (s.gyro_x ^ 2 + s.gyro_y ^ 2 + s.gyro_z ^ 2) ^ 2 =
      s.gyro_x ^ 2 + s.gyro_y ^ 2 + s.gyro_z ^ 2) :
    List.lookup "acc_mag_energy" (featureize sq chunk) =
      some ((List.lookup "accel_x_energy" (featureize sq chunk)).getD 0 +
            (List.lookup "accel_y_energy" (featureize sq chunk)).getD 0 +
            (List.lookup "accel_z_energy" (featureize sq chunk)).getD 0) ∧
    List.lookup "gyro_mag_energy" (featureize sq chunk) =
      some ((List.lookup "gyro_x_energy" (featureize sq chunk)).getD 0 +
            (List.lookup "gyro_y_energy" (featureize sq chunk)).getD 0 +
            (List.lookup "gyro_z_energy" (featureize sq chunk)).getD 0) := by
  have hne : ¬ chunk.length < 5 := by omega
  have hax : List.lookup "accel_x_energy" (featureize sq chunk) =
      some (npMean ((chunk.map (fun s => s.accel_x)).map (fun x => x ^ 2))) := by
    unfold featureize
    rw [if_neg hne]
    rfl
  have hay : List.lookup "accel_y_energy" (featureize sq chunk) =
      some (npMean ((chunk.map (fun s => s.accel_y)).map (fun x => x ^ 2))) := by
    unfold featureize
    rw [if_neg hne]
    rfl
  have haz : List.lookup "accel_z_energy" (featureize sq chunk) =
      some (npMean ((chunk.map (fun s => s.accel_z)).map (fun x => x ^ 2))) := by
    unfold featureize
    rw [if_neg hne]
    rfl
  have hgx : List.lookup "gyro_x_energy" (featureize sq chunk) =
      some (npMean ((chunk.map (fun s => s.gyro_x)).map (fun x => x ^ 2))) := by
    unfold featureize
    rw [if_neg hne]
    rfl
  have hgy : List.lookup "gyro_y_energy" (featureize sq chunk) =
      some (npMean ((chunk.map (fun s => s.gyro_y)).map (fun x => x ^ 2))) := by
    unfold featureize
    rw [if_neg hne]
    rfl
  have hgz : List.lookup "gyro_z_energy" (featureize sq chunk) =
      some (npMean ((chunk.map (fun s => s.gyro_z)).map (fun x => x ^ 2))) := by
    unfold featureize
    rw [if_neg hne]
    rfl
  have ham : List.lookup "acc_mag_energy" (featureize sq chunk) =
      some (npMean ((chunk.map
        (fun s => sq (s.accel_x ^ 2 + s.accel_y ^ 2 + s.accel_z ^ 2))).map
          (fun x => x ^ 2))) := by
    unfold featureize
    rw [if_neg hne]
    rfl
  have hgm : List.lookup "gyro_mag_energy" (featureize sq chunk) =
      some (npMean ((chunk.map
        (fun s => sq (s.gyro_x ^ 2 + s.gyro_y ^ 2 + s.gyro_z ^ 2))).map
          (fun x => x ^ 2))) := by
    unfold featureize
    rw [if_neg hne]
    rfl
  constructor
  · rw [ham, hax, hay, haz]
    simp only [Option.getD_some, List.map_map, Function.comp_def]
    rw [List.map_congr_left (l := chunk)
      (f := fun s => sq (s.accel_x ^ 2 + s.accel_y ^ 2 + s.accel_z ^ 2) ^ 2)
      (g := fun s => s.accel_x ^ 2 + s.accel_y ^ 2 + s.accel_z ^ 2) hacc]
    rw [npMean_map_add3 chunk (fun s => s.accel_x ^ 2) (fun s => s.accel_y ^ 2)
      (fun s => s.accel_z ^ 2)]
  · rw [hgm, hgx, hgy, hgz]
    simp only [Option.getD_some, List.map_map, Function.comp_def]
    rw [List.map_congr_left (l := chunk)
      (f := fun s => sq (s.gyro_x ^ 2 + s.gyro_y ^ 2 + s.gyro_z ^ 2) ^ 2)
      (g := fun s => s.gyro_x ^ 2 + s.gyro_y ^ 2 + s.gyro_z ^ 2) hgyro]
    rw [npMean_map_add3 chunk (fun s => s.gyro_x ^ 2) (fun s => s.gyro_y ^ 2)
      (fun s => s.gyro_z ^ 2)]

unseal Rat.add Rat.mul Rat.inv Rat.sub in
/-- Concrete check of `c10_magnitude_energy_additive` on `chunk5` with the
identity as square root (exact on the sums of squares `1` and `0`). -/
theorem c10_magnitude_energy_additive_witness :
    List.lookup "acc_mag_energy" (featureize (fun x => x) chunk5) =
      some ((List.lookup "accel_x_energy" (featureize (fun x => x) chunk5)).getD 0 +
            (List.lookup "accel_y_energy" (featureize (fun x => x) chunk5)).getD 0 +
            (List.lookup "accel_z_energy" (featureize (fun x => x) chunk5)).getD 0) ∧
    List.lookup "gyro_mag_energy" (featureize (fun x => x) chunk5) =
      some ((List.lookup "gyro_x_energy" (featureize (fun x => x) chunk5)).getD 0 +
            (List.lookup "gyro_y_energy" (featureize (fun x => x) chunk5)).getD 0 +
            (List.lookup "gyro_z_energy" (featureize (fun x => x) chunk5)).getD 0) :=
  c10_magnitude_energy_additive (fun x => x) chunk5 (by decide) (by decide) (by decide)

/-- The inner loop of `main` grows `total` in lockstep with the insert list. -/
theorem innerFold_len (sq : ℚ → ℚ) (vid : ℤ) :
    ∀ (ws : List (ℚ × ℚ × List SensorSample)) (acc : List LabeledWindow × ℕ),
      acc.2 = acc.1.length →
      (ws.foldl (fun acc2 w =>
        match persistDecision sq vid w with
        | none => acc2
        | some r => (acc2.1 ++ [r], acc2.2 + 1)) acc).2 =
      (ws.foldl (fun acc2 w =>
        match persistDecision sq vid w with
        | none => acc2
        | some r => (acc2.1 ++ [r], acc2.2 + 1)) acc).1.length := by
  intro ws
  induction ws with
  | nil => intro acc h; simpa using h
  | cons w rest ih =>
    intro acc h
    simp only [List.foldl_cons]
    cases hd : persistDecision sq vid w with
    | none => exact ih acc h
    | some r =>
      apply ih
      simp [h]

/-- The outer loop of `main` preserves the same invariant across subjects. -/
theorem outerFold_len (sq : ℚ → ℚ) (df : List SensorSample) (win stride : ℚ) :
    ∀ (ids : List ℤ) (acc : List LabeledWindow × ℕ),
      acc.2 = acc.1.length →
      (ids.foldl (fun acc vid =>
        (window_iter (groupFor df vid) win stride).foldl (fun acc2 w =>
          match persistDecision sq vid w with
          | none => acc2
          | some r => (acc2.1 ++ [r], acc2.2 + 1)) acc) acc).2 =
      (ids.foldl (fun acc vid =>
        (window_iter (groupFor df vid) win stride).foldl (fun acc2 w =>
          match persistDecision sq vid w with
          | none => acc2
          | some r => (acc2.1 ++ [r], acc2.2 + 1)) acc) acc).1.length := by
  intro ids
  induction ids with
  | nil => intro acc h; simpa using h
  | cons vid rest ih =>
    intro acc h
    simp only [List.foldl_cons]
    exact ih _ (innerFold_len sq vid _ acc h)

/-- Claim C6: the orchestrator's reported total is exactly the number of
persisted windows, and an empty raw source warns, writes nothing and
reports 0. -/
theorem c6_run_total_and_empty_source (sq : ℚ → ℚ) (df : List SensorSample)
    (win stride : ℚ) :
    (mainRun sq df win stride).total = (mainRun sq df win stride).writes.length ∧
      (df = [] → mainRun sq df win stride = ⟨true, [], 0⟩) := by
  constructor
  · unfold mainRun
    by_cases hdf : df.isEmpty = true
    · rw [if_pos hdf]
      rfl
    · rw [if_neg hdf]
      exact outerFold_len sq df win stride (subjectIds df) ([], 0) rfl
  · intro h
    subst h
    rfl

/-- Concrete check of `c6_run_total_and_empty_source`: the count matches the
writes on `dfW`, and the empty source warns with zero writes and total 0. -/
theorem c6_run_total_and_empty_source_witness :
    (mainRun (fun x => x) dfW 1 1).total =
      (mainRun (fun x => x) dfW 1 1).writes.length ∧
      mainRun (fun x => x) [] 1 1 = ⟨true, [], 0⟩ :=
  ⟨(c6_run_total_and_empty_source (fun x => x) dfW 1 1).1,
   (c6_run_total_and_empty_source (fun x => x) [] 1 1).2 rfl⟩

/-- The inserts of `main`'s inner loop are the kept `persistDecision` results. -/
theorem innerFold_writes (sq : ℚ → ℚ) (vid : ℤ) :
    ∀ (ws : List (ℚ × ℚ × List SensorSample)) (acc : List LabeledWindow × ℕ),
      (ws.foldl (fun acc2 w =>
        match persistDecision sq vid w with
        | none => acc2
        | some r => (acc2.1 ++ [r], acc2.2 + 1)) acc).1 =
      acc.1 ++ ws.filterMap (persistDecision sq vid) := by
  intro ws
  induction ws with
  | nil => intro acc; simp
  | cons w rest ih =>
    intro acc
    simp only [List.foldl_cons, List.filterMap_cons]
    cases hd : persistDecision sq vid w with
    | none => rw [ih acc]
    | some r => rw [ih _]; simp

/-- The inserts of the whole run are the per-subject kept windows, flattened. -/
theorem outerFold_writes (sq : ℚ → ℚ) (df : List SensorSample) (win stride : ℚ) :
    ∀ (ids : List ℤ) (acc : List LabeledWindow × ℕ),
      (ids.foldl (fun acc vid =>
        (window_iter (groupFor df vid) win stride).foldl (fun acc2 w =>
          match persistDecision sq vid w with
          | none => acc2
          | some r => (acc2.1 ++ [r], acc2.2 + 1)) acc) acc).1 =
      acc.1 ++ (ids.map (fun vid =>
        (window_iter (groupFor df vid) win stride).filterMap
          (persistDecision sq vid))).flatten := by
  intro ids
  induction ids with
  | nil => intro acc; simp
  | cons vid rest ih =>
    intro acc
    simp only [List.foldl_cons, List.map_cons, List.flatten_cons]
    rw [ih _, innerFold_writes sq vid _ acc, List.append_assoc]

/-- Claim C5: a window whose subset has fewer than 5 samples is never
persisted — `persistDecision` drops it — and every persisted record
originates from some emitted window with at least 5 samples whose features
were non-empty. -/
theorem c5_small_windows_never_persisted (sq : ℚ → ℚ) (df : List SensorSample)
    (win stride : ℚ) :
    (∀ (vid : ℤ) (w : ℚ × ℚ × List SensorSample),
        w.2.2.length < 5 → persistDecision sq vid w = none) ∧
      ∀ r ∈ (mainRun sq df win stride).writes,
        ∃ vid ∈ subjectIds df, ∃ w ∈ window_iter (groupFor df vid) win stride,
          5 ≤ w.2.2.length ∧ persistDecision sq vid w = some r := by
  have hdrop : ∀ (vid : ℤ) (w : ℚ × ℚ × List SensorSample),
      w.2.2.length < 5 → persistDecision sq vid w = none := by
    intro vid w hlen
    unfold persistDecision
    rw [show featureize sq w.2.2 = [] from by unfold featureize; rw [if_pos hlen]]
    rfl
  refine ⟨hdrop, ?_⟩
  intro r hr
  unfold mainRun at hr
  by_cases hdf : df.isEmpty = true
  · rw [if_pos hdf] at hr
    simp at hr
  · rw [if_neg hdf] at hr
    simp only [runBody] at hr
    rw [outerFold_writes sq df win stride (subjectIds df) ([], 0)] at hr
    simp only [List.nil_append] at hr
    obtain ⟨l, hl, hrl⟩ := List.mem_flatten.mp hr
    obtain ⟨vid, hvid, rfl⟩ := List.mem_map.mp hl
    obtain ⟨w, hw, hwr⟩ := List.mem_filterMap.mp hrl
    refine ⟨vid, hvid, w, hw, ?_, hwr⟩
    by_contra hlt
    rw [hdrop vid w (by omega)] at hwr
    exact Option.noConfusion hwr

/-- Concrete check of `c5_small_windows_never_persisted`: an under-populated
window (here an empty subset) is dropped, and on `dfW` every persisted
record traces back to a full window. -/
theorem c5_small_windows_never_persisted_witness :
    persistDecision (fun x => x) 1 (0, 1, ([] : List SensorSample)) = none ∧
      ∀ r ∈ (mainRun (fun x => x) dfW 1 1).writes,
        ∃ vid ∈ subjectIds dfW, ∃ w ∈ window_iter (groupFor dfW vid) 1 1,
          5 ≤ w.2.2.length ∧ persistDecision (fun x => x) vid w = some r :=
  ⟨(c5_small_windows_never_persisted (fun x => x) dfW 1 1).1 1
      (0, 1, []) (by decide),
   (c5_small_windows_never_persisted (fun x => x) dfW 1 1).2⟩
